import Mathlib

/-!
Verification of the emcee MCP bridge (Go) against its specification.

The Go source is shallowly embedded: Go strings are Lean `String`s, except
where byte-level slicing matters (tool names), where they are `List Nat`
byte sequences; Go `map[string]T` values built by insertion are association
lists updated by `mapSet`; machine words are `Nat` reduced mod `2 ^ 32`;
fallible paths return `Except`/`Option`.
-/

namespace Emcee

/-! ## Dynamic JSON-ish values (Go `interface{}` after `json.Unmarshal`) -/

/-- A dynamic value as produced by Go `json.Unmarshal` into `interface{}`.
Numbers are modelled as integers (the claims only exercise integral values). -/
inductive Value where
  | null : Value
  | bool (b : Bool) : Value
  | num (n : Int) : Value
  | str (s : String) : Value
  | arr (elems : List Value) : Value
  | obj (fields : List (String × Value)) : Value
  deriving Repr

/-- Insertion sort by key of already-formatted map entries, modelling Go's
sorted printing of map keys in `fmt`. -/
def insertPair (p : String × String) : List (String × String) → List (String × String)
  | [] => [p]
  | q :: rest => if p.1 ≤ q.1 then p :: q :: rest else q :: insertPair p rest

def sortPairs : List (String × String) → List (String × String)
  | [] => []
  | p :: rest => insertPair p (sortPairs rest)

mutual

/-- Model of Go `fmt.Sprint` on a dynamic value (with its two list
helpers below): strings print verbatim, numbers in decimal, booleans as
`true`/`false`, slices as bracketed space-separated elements, maps as
`map[k:v ...]` with sorted keys, and a nil interface as `<nil>`. -/
def fmtSprint : Value → String
  | .null => "<nil>"
  | .bool b => if b then "true" else "false"
  | .num n => toString n
  | .str s => s
  | .arr elems => "[" ++ String.intercalate " " (fmtValues elems) ++ "]"
  | .obj fields =>
      "map[" ++ String.intercalate " "
        ((sortPairs (fmtFields fields)).map fun q => q.1 ++ ":" ++ q.2) ++ "]"

def fmtValues : List Value → List String
  | [] => []
  | v :: vs => fmtSprint v :: fmtValues vs

def fmtFields : List (String × Value) → List (String × String)
  | [] => []
  | (k, v) :: fs => (k, fmtSprint v) :: fmtFields fs

end

/-! ## Association-list map with Go map insertion semantics -/

/-- `m[k] = v` on a Go map modelled as an association list: replace the
binding if the key is present, otherwise append it. -/
def mapSet (m : List (String × α)) (k : String) (v : α) : List (String × α) :=
  match m with
  | [] => [(k, v)]
  | (k₀, v₀) :: rest =>
      if k₀ = k then (k, v) :: rest else (k₀, v₀) :: mapSet rest k v

@[simp] theorem lookup_mapSet_self (m : List (String × α)) (k : String) (v : α) :
    (mapSet m k v).lookup k = some v := by
  induction m with
  | nil => simp [mapSet, List.lookup]
  | cons p rest ih =>
      obtain ⟨k₀, v₀⟩ := p
      by_cases h : k₀ = k
      · simp [mapSet, h, List.lookup]
      · have hbe : (k == k₀) = false := beq_eq_false_iff_ne.mpr (Ne.symm h)
        simp [mapSet, h, List.lookup, hbe, ih]

@[simp] theorem lookup_mapSet_other (m : List (String × α)) (k k₂ : String) (v : α)
    (h : k₂ ≠ k) : (mapSet m k v).lookup k₂ = m.lookup k₂ := by
  have hbe : (k₂ == k) = false := beq_eq_false_iff_ne.mpr h
  induction m with
  | nil => simp [mapSet, List.lookup, hbe]
  | cons p rest ih =>
      obtain ⟨k₀, v₀⟩ := p
      by_cases h₀ : k₀ = k
      · subst h₀
        simp [mapSet, List.lookup, hbe]
      · by_cases h₂ : k₂ = k₀
        · subst h₂
          simp [mapSet, h₀, List.lookup]
        · have hbe₂ : (k₂ == k₀) = false := beq_eq_false_iff_ne.mpr h₂
          simp [mapSet, h₀, List.lookup, hbe₂, ih]

/-! ## UTF-8 bytes of a string (Go strings are byte sequences) -/

/-- UTF-8 encoding of a single character as `Nat` code units, mirroring the
standard encoder. -/
def utf8Char (c : Char) : List Nat :=
  let n := c.toNat
  if n < 0x80 then [n]
  else if n < 0x800 then [0xC0 ||| (n >>> 6), 0x80 ||| (n &&& 0x3F)]
  else if n < 0x10000 then
    [0xE0 ||| (n >>> 12), 0x80 ||| ((n >>> 6) &&& 0x3F), 0x80 ||| (n &&& 0x3F)]
  else
    [0xF0 ||| (n >>> 18), 0x80 ||| ((n >>> 12) &&& 0x3F),
     0x80 ||| ((n >>> 6) &&& 0x3F), 0x80 ||| (n &&& 0x3F)]

/-- The byte sequence of a Go string (UTF-8). -/
def utf8Bytes (s : String) : List Nat :=
  s.data.flatMap utf8Char

/-! ## SHA-256 (model of Go `crypto/sha256`, words as `Nat` mod `2 ^ 32`) -/

def w32 (x : Nat) : Nat := x % (2 ^ 32)

def rotr32 (x n : Nat) : Nat := w32 ((x >>> n) ||| (x <<< (32 - n)))

def shaBigSigma0 (x : Nat) : Nat := (rotr32 x 2) ^^^ (rotr32 x 13) ^^^ (rotr32 x 22)
def shaBigSigma1 (x : Nat) : Nat := (rotr32 x 6) ^^^ (rotr32 x 11) ^^^ (rotr32 x 25)
def shaSmallSigma0 (x : Nat) : Nat := (rotr32 x 7) ^^^ (rotr32 x 18) ^^^ (x >>> 3)
def shaSmallSigma1 (x : Nat) : Nat := (rotr32 x 17) ^^^ (rotr32 x 19) ^^^ (x >>> 10)

def shaCh (e f g : Nat) : Nat := (e &&& f) ^^^ ((e ^^^ 0xFFFFFFFF) &&& g)
def shaMaj (a b c : Nat) : Nat := (a &&& b) ^^^ (a &&& c) ^^^ (b &&& c)

/-- The 64 SHA-256 round constants, in decimal. -/
def k256 : List Nat :=
  [1116352408, 1899447441, 3049323471, 3921009573, 961987163, 1508970993,
   2453635748, 2870763221, 3624381080, 310598401, 607225278, 1426881987,
   1925078388, 2162078206, 2614888103, 3248222580, 3835390401, 4022224774,
   264347078, 604807628, 770255983, 1249150122, 1555081692, 1996064986,
   2554220882, 2821834349, 2952996808, 3210313671, 3336571891, 3584528711,
   113926993, 338241895, 666307205, 773529912, 1294757372, 1396182291,
   1695183700, 1986661051, 2177026350, 2456956037, 2730485921, 2820302411,
   3259730800, 3345764771, 3516065817, 3600352804, 4094571909, 275423344,
   430227734, 506948616, 659060556, 883997877, 958139571, 1322822218,
   1537002063, 1747873779, 1955562222, 2024104815, 2227730452, 2361852424,
   2428436474, 2756734187, 3204031479, 3329325298]

/-- The eight-word hash state. -/
structure Hash8 where
  a : Nat
  b : Nat
  c : Nat
  d : Nat
  e : Nat
  f : Nat
  g : Nat
  h : Nat
  deriving Repr, DecidableEq

/-- The initial SHA-256 hash state, in decimal. -/
def shaInit : Hash8 :=
  ⟨1779033703, 3144134277, 1013904242, 2773480762,
   1359893119, 2600822924, 528734635, 1541459225⟩

/-- SHA-256 padding: append `0x80`, zeros, and the 64-bit big-endian bit length. -/
def shaPad (msg : List Nat) : List Nat :=
  let len := msg.length
  let zeros := (119 - (len % 64)) % 64
  let bits := 8 * len
  msg ++ [0x80] ++ List.replicate zeros 0 ++
    [(bits >>> 56) % 256, (bits >>> 48) % 256, (bits >>> 40) % 256,
     (bits >>> 32) % 256, (bits >>> 24) % 256, (bits >>> 16) % 256,
     (bits >>> 8) % 256, bits % 256]

def chunks64 (l : List Nat) : List (List Nat) :=
  if h : l = [] then []
  else
    have : (List.drop 64 l).length < l.length := by
      have : 0 < l.length := List.length_pos.mpr h
      simp only [List.length_drop]
      omega
    l.take 64 :: chunks64 (l.drop 64)
  termination_by l.length

/-- Big-endian 32-bit words of a 64-byte block. -/
def blockWords : List Nat → List Nat
  | b0 :: b1 :: b2 :: b3 :: rest =>
      (w32 ((b0 <<< 24) ||| (b1 <<< 16) ||| (b2 <<< 8) ||| b3)) :: blockWords rest
  | _ => []

/-- Extend the 16-word schedule by `n` further words. -/
def extendSchedule (w : List Nat) : Nat → List Nat
  | 0 => w
  | n + 1 =>
      let len := w.length
      let wi := w32 (shaSmallSigma1 (w.getD (len - 2) 0) + w.getD (len - 7) 0 +
                     shaSmallSigma0 (w.getD (len - 15) 0) + w.getD (len - 16) 0)
      extendSchedule (w ++ [wi]) n

def shaRound (st : Hash8) (kw : Nat × Nat) : Hash8 :=
  let t1 := w32 (st.h + shaBigSigma1 st.e + shaCh st.e st.f st.g + kw.1 + kw.2)
  let t2 := w32 (shaBigSigma0 st.a + shaMaj st.a st.b st.c)
  ⟨w32 (t1 + t2), st.a, st.b, st.c, w32 (st.d + t1), st.e, st.f, st.g⟩

def compressBlock (H : Hash8) (block : List Nat) : Hash8 :=
  let w := extendSchedule (blockWords block) 48
  let st := (k256.zip w).foldl shaRound H
  ⟨w32 (H.a + st.a), w32 (H.b + st.b), w32 (H.c + st.c), w32 (H.d + st.d),
   w32 (H.e + st.e), w32 (H.f + st.f), w32 (H.g + st.g), w32 (H.h + st.h)⟩

/-- Big-endian bytes of one 32-bit word. -/
def wordBytes (x : Nat) : List Nat :=
  [(x >>> 24) % 256, (x >>> 16) % 256, (x >>> 8) % 256, x % 256]

/-- The 32 digest bytes of a hash state. -/
def hashBytes (H : Hash8) : List Nat :=
  wordBytes H.a ++ wordBytes H.b ++ wordBytes H.c ++ wordBytes H.d ++
  wordBytes H.e ++ wordBytes H.f ++ wordBytes H.g ++ wordBytes H.h

/-- SHA-256 digest (32 bytes) of a byte sequence, modelling `sha256.Sum256`. -/
def sha256 (msg : List Nat) : List Nat :=
  hashBytes ((chunks64 (shaPad msg)).foldl compressBlock shaInit)

@[simp] theorem hashBytes_length (H : Hash8) : (hashBytes H).length = 32 := by
  simp [hashBytes, wordBytes]

theorem sha256_length (msg : List Nat) : (sha256 msg).length = 32 := by
  simp [sha256]

/-! ## URL-safe base64 without padding (Go `base64.RawURLEncoding`) -/

def b64Alphabet : List Char :=
  "ABCDEFGHIJKLMNOPQRSTUVWXYZabcdefghijklmnopqrstuvwxyz0123456789-_".data

def b64Char (n : Nat) : Char := b64Alphabet.getD n '?'

/-- URL-safe base64 (no padding) of a byte sequence. -/
def base64RawURL : List Nat → List Char
  | [] => []
  | [b0] => [b64Char (b0 >>> 2), b64Char ((b0 &&& 0x3) <<< 4)]
  | [b0, b1] =>
      [b64Char (b0 >>> 2), b64Char (((b0 &&& 0x3) <<< 4) ||| (b1 >>> 4)),
       b64Char ((b1 &&& 0xF) <<< 2)]
  | b0 :: b1 :: b2 :: rest =>
      b64Char (b0 >>> 2) :: b64Char (((b0 &&& 0x3) <<< 4) ||| (b1 >>> 4)) ::
      b64Char ((((b1 &&& 0xF) <<< 2) ||| (b2 >>> 6))) :: b64Char (b2 &&& 0x3F) ::
      base64RawURL rest

theorem base64RawURL_hashBytes_length (H : Hash8) :
    (base64RawURL (hashBytes H)).length = 43 := by
  simp [hashBytes, wordBytes, base64RawURL]

/-! ## Tool names (`getToolName` in `mcp/server.go`) -/

/-- `getToolName` from the source: the operationId itself when at most 64
bytes, otherwise its first 55 bytes, `_`, and the first 8 characters of the
URL-safe base64 encoding of its SHA-256 digest. -/
def getToolName (opId : List Nat) : List Nat :=
  if opId.length ≤ 64 then opId
  else opId.take 55 ++ [95] ++ ((base64RawURL (sha256 opId)).take 8).map Char.toNat

/-! ## OpenAPI model (read-only view exposed by `libopenapi`, §4.B) -/

/-- A resolved parameter schema: `schema.Type` and `schema.Pattern`
(`""` when absent). -/
structure ParamSchema where
  types : List String
  pattern : String
  deriving Repr, DecidableEq

/-- An OpenAPI parameter. `loc` is the source's `In` field; `required`
models `param.Required != nil && *param.Required`; `schema` is `none` when
`param.Schema` (or its resolved schema) is nil. -/
structure Param where
  name : String
  loc : String
  required : Bool
  schema : Option ParamSchema
  description : String
  deriving Repr, DecidableEq

/-- One property of the JSON request-body schema. -/
structure BodyProp where
  name : String
  types : List String
  description : String
  deriving Repr, DecidableEq

/-- The resolved `requestBody.content["application/json"]` schema, present
only when its `Properties` map is non-nil. -/
structure BodySchema where
  props : List BodyProp
  required : List String
  deriving Repr, DecidableEq

structure Operation where
  operationId : String
  summary : String
  description : String
  parameters : List Param
  requestBody : Option BodySchema
  deriving Repr, DecidableEq

structure PathItem where
  get : Option Operation
  post : Option Operation
  put : Option Operation
  delete : Option Operation
  patch : Option Operation
  parameters : List Param
  deriving Repr, DecidableEq

/-- The v3 document: ordered `(path, pathItem)` pairs. -/
structure ApiModel where
  pathItems : List (String × PathItem)
  deriving Repr, DecidableEq

/-- The fixed method order used by both `handleToolsList` and
`findOperationByToolName`. -/
def operationsOf (item : PathItem) : List (String × Option Operation) :=
  [("GET", item.get), ("POST", item.post), ("PUT", item.put),
   ("DELETE", item.delete), ("PATCH", item.patch)]

/-! ## Tool projection (`handleToolsList` in `mcp/server.go`) -/

/-- One property of a projected `inputSchema` (the per-property
`map[string]interface{}` in the source). -/
structure PropSchema where
  type : String
  pattern : Option String
  description : String
  deriving Repr, DecidableEq

structure InputSchema where
  type : String
  properties : List (String × PropSchema)
  required : List String
  deriving Repr, DecidableEq

/-- A projected tool; the name is a Go string, i.e. a byte sequence. -/
structure Tool where
  name : List Nat
  description : String
  inputSchema : InputSchema
  deriving Repr, DecidableEq

/-- Add one parameter (path-item level or operation level) to an input
schema; parameters without a schema are skipped entirely. -/
def addParam (acc : InputSchema) (p : Param) : InputSchema :=
  match p.schema with
  | none => acc
  | some s =>
      let prop : PropSchema :=
        { type := s.types.headD "string",
          pattern := if s.pattern = "" then none else some s.pattern,
          description := p.description }
      { acc with
        properties := mapSet acc.properties p.name prop,
        required := if p.required then acc.required ++ [p.name] else acc.required }

/-- Add the JSON request-body properties and required names. -/
def addBody (acc : InputSchema) : Option BodySchema → InputSchema
  | none => acc
  | some sch =>
      let acc := sch.props.foldl (fun a pr =>
        { a with properties :=
            mapSet a.properties pr.name ⟨pr.types.headD "string", none, pr.description⟩ }) acc
      { acc with required := acc.required ++ sch.required }

/-- Build the tool for one operation (inline body of the projection loop). -/
def mkTool (item : PathItem) (op : Operation) : Tool :=
  let s0 : InputSchema := ⟨"object", [], []⟩
  let s1 := item.parameters.foldl addParam s0
  let s2 := op.parameters.foldl addParam s1
  let s3 := addBody s2 op.requestBody
  let description := if op.description = "" then op.summary else op.description
  ⟨getToolName (utf8Bytes op.operationId), description, s3⟩

/-- `handleToolsList`: operations with an empty `operationId` are skipped. -/
def handleToolsList (m : ApiModel) : List Tool :=
  m.pathItems.flatMap fun entry =>
    (operationsOf entry.2).filterMap fun me =>
      match me.2 with
      | none => none
      | some op => if op.operationId = "" then none else some (mkTool entry.2 op)

/-! ## Operation lookup (`findOperationByToolName`) -/

/-- Maps a tool name back to its `(method, path, operation, pathItem)`;
operations with an empty `operationId` are never compared. -/
def findOperationByToolName (m : ApiModel) (toolName : List Nat) :
    Option (String × String × Operation × PathItem) :=
  m.pathItems.findSome? fun entry =>
    (operationsOf entry.2).findSome? fun me =>
      match me.2 with
      | none => none
      | some op =>
          if op.operationId ≠ "" ∧ getToolName (utf8Bytes op.operationId) = toolName
          then some (me.1, entry.1, op, entry.2)
          else none

/-! ## Path cleaning (Go `path.Clean` / `path.Join`, lexical) -/

/-- One step of the segment stack used by `path.Clean`. -/
def cleanStep (rooted : Bool) (stack : List String) (seg : String) : List String :=
  if seg = "" ∨ seg = "." then stack
  else if seg = ".." then
    match stack with
    | s :: rest => if s = ".." then seg :: stack else rest
    | [] => if rooted then [] else [".."]
  else seg :: stack

/-- Go `path.Clean`: collapse duplicate slashes, resolve `.` and `..`
segments, drop trailing slashes; empty results become `"."` (or `"/"`). -/
def pathClean (p : String) : String :=
  if p = "" then "." else
  let rooted := p.startsWith "/"
  let stack := (p.splitOn "/").foldl (cleanStep rooted) []
  let body := String.intercalate "/" stack.reverse
  if rooted then (if body = "" then "/" else "/" ++ body)
  else (if body = "" then "." else body)

/-- Go `strings.TrimSuffix`. -/
def trimSuffix (s suf : String) : String :=
  if s.endsWith suf then s.dropRight suf.length else s

/-- Go `strings.TrimPrefix`. -/
def trimPrefix (s pre : String) : String :=
  if s.startsWith pre then s.drop pre.length else s

/-- Go `path.Join` on two elements: join the non-empty ones with `/` and
clean; all-empty input yields `""`. -/
def pathJoin2 (a b : String) : String :=
  if a = "" ∧ b = "" then ""
  else if a = "" then pathClean b
  else if b = "" then pathClean a
  else pathClean (a ++ "/" ++ b)

/-! ## Path-segment escaping (`pathSegmentEscape` / `shouldEscape`) -/

/-- `shouldEscape` from the source, on a byte: RFC 3986 §3.3 path-segment
characters (unreserved, sub-delims, `:`, `@`) are preserved. -/
def shouldEscape (c : Nat) : Bool :=
  !((97 ≤ c && c ≤ 122) || (65 ≤ c && c ≤ 90) || (48 ≤ c && c ≤ 57) ||
    (c == 45) || (c == 46) || (c == 95) || (c == 126) ||
    (c == 33) || (c == 36) || (c == 38) || (c == 39) || (c == 40) ||
    (c == 41) || (c == 42) || (c == 43) || (c == 44) || (c == 59) ||
    (c == 61) || (c == 58) || (c == 64))

def hexUpper : List Char := "0123456789ABCDEF".data

/-- Escape a single byte; unescaped bytes are necessarily ASCII, so the
resulting characters are exactly the bytes of the Go result string. -/
def escapeByte (c : Nat) : List Char :=
  if shouldEscape c then ['%', hexUpper.getD (c >>> 4) '0', hexUpper.getD (c &&& 15) '0']
  else [Char.ofNat c]

/-- `pathSegmentEscape` from the source, acting on the UTF-8 bytes. -/
def pathSegmentEscape (s : String) : String :=
  String.mk ((utf8Bytes s).flatMap escapeByte)

/-! ## MCP content and JSON-RPC errors -/

/-- MCP `Content`; every emitted content carries
`annotations.audience = ["assistant"]` (priority nil). -/
structure Content where
  type : String
  text : String
  data : String
  mimeType : String
  audience : List String
  deriving Repr, DecidableEq

def textContent (t : String) : Content := ⟨"text", t, "", "", ["assistant"]⟩

def imageContent (d mime : String) : Content := ⟨"image", "", d, mime, ["assistant"]⟩

/-- The dynamic `data` payload of a JSON-RPC error (`interface{}` in Go):
either an MCP content value or a wrapped Go `error` string. -/
inductive ErrData where
  | content (c : Content)
  | errMsg (s : String)
  deriving Repr, DecidableEq

/-- `NewError`'s message table from `jsonrpc`. -/
def errorMessageFor (code : Int) : String :=
  if code = -32700 then "Parse error"
  else if code = -32600 then "Invalid Request"
  else if code = -32601 then "Method not found"
  else if code = -32602 then "Invalid params"
  else if code = -32603 then "Internal error"
  else if code = -32000 then "Server error"
  else if -32099 ≤ code ∧ code ≤ -32000 then "Server error"
  else "Unknown error"

structure RpcError where
  code : Int
  message : String
  data : Option ErrData
  deriving Repr, DecidableEq

/-- `jsonrpc.NewError`. -/
def mkError (code : Int) (data : Option ErrData) : RpcError :=
  ⟨code, errorMessageFor code, data⟩

/-! ## Invocation engine (`handleToolsCall` in `mcp/server.go`) -/

/-- Parsed components of the server's base URL (`url.Parse(s.baseURL)`,
a stdlib collaborator). -/
structure BaseUrl where
  scheme : String
  host : String
  path : String
  deriving Repr, DecidableEq

/-- `u.Path` as assembled from the base URL and the operation path
(source lines: ensure leading slash, `path.Clean`, join with cleaned base
path, restore the leading slash). -/
def buildPath (base : BaseUrl) (p0 : String) : String :=
  let p1 := if p0.startsWith "/" then p0 else "/" ++ p0
  let p := pathClean p1
  if base.path ≠ "" then
    "/" ++ trimPrefix (pathJoin2 (pathClean base.path) p) "/"
  else p

/-- `http.Header.Add` (sans MIME canonicalization, which no claim touches). -/
def headerAdd (hs : List (String × List String)) (k v : String) : List (String × List String) :=
  match hs with
  | [] => [(k, [v])]
  | (k₀, vs) :: rest => if k₀ = k then (k₀, vs ++ [v]) :: rest else (k₀, vs) :: headerAdd rest k v

/-- The mutable binding state of the invocation loop: `u.Path`,
`queryParams` (an `url.Values` keyed map) and `headerParams`. -/
structure BindState where
  upath : String
  query : List (String × String)
  headers : List (String × List String)
  deriving Repr, DecidableEq

/-- Binding step for a path-item-level parameter: `path` substitutes the
`{name}` placeholder with the escaped `fmt.Sprint` of the value, `query`
sets the plain `fmt.Sprint` of the value (no array handling at this
level), `header` adds the `fmt.Sprint` of the value. -/
def bindPathItemParam (args : List (String × Value)) (st : BindState) (p : Param) : BindState :=
  match args.lookup p.name with
  | none => st
  | some v =>
      if p.loc = "path" then
        { st with upath := st.upath.replace ("\x7b" ++ p.name ++ "\x7d")
                              (pathSegmentEscape (fmtSprint v)) }
      else if p.loc = "query" then
        { st with query := mapSet st.query p.name (fmtSprint v) }
      else if p.loc = "header" then
        { st with headers := headerAdd st.headers p.name (fmtSprint v) }
      else st

/-- The comma-joined serialization used for operation-level array query
values. -/
def commaJoined (elems : List Value) : String :=
  String.intercalate "," (elems.map fmtSprint)

/-- Binding step for an operation-level parameter: as above, except that a
`[]interface{}` query value is serialized comma-joined. -/
def bindOpParam (args : List (String × Value)) (st : BindState) (p : Param) : BindState :=
  match args.lookup p.name with
  | none => st
  | some v =>
      if p.loc = "path" then
        { st with upath := st.upath.replace ("\x7b" ++ p.name ++ "\x7d")
                              (pathSegmentEscape (fmtSprint v)) }
      else if p.loc = "query" then
        let qv := match v with
          | .arr elems => commaJoined elems
          | other => fmtSprint other
        { st with query := mapSet st.query p.name qv }
      else if p.loc = "header" then
        { st with headers := headerAdd st.headers p.name (fmtSprint v) }
      else st

/-- The request-body map: iterate the declared schema properties and copy
each one that appears in the arguments. -/
def bodyFold (args : List (String × Value)) (props : List BodyProp)
    (acc : List (String × Value)) : List (String × Value) :=
  match props with
  | [] => acc
  | pr :: rest =>
      match args.lookup pr.name with
      | some v => bodyFold args rest (mapSet acc pr.name v)
      | none => bodyFold args rest acc

/-- `bodyParams`: `none` models the nil map (no JSON request-body schema with
properties declared). -/
def bodyParamsOf (op : Operation) (args : List (String × Value)) :
    Option (List (String × Value)) :=
  match op.requestBody with
  | none => none
  | some sch => some (bodyFold args sch.props [])

/-- The outbound HTTP request handed to the injected client. `query` holds
the `url.Values` contents (their percent-encoded rendering via `Encode` is
downstream); `contentTypeJson` records `Content-Type: application/json`
being set, which the source does exactly when a body is present. -/
structure OutRequest where
  method : String
  scheme : String
  host : String
  upath : String
  query : List (String × String)
  headers : List (String × List String)
  body : Option (List (String × Value))
  contentTypeJson : Bool

/-- The HTTP response as read back by the engine (status code,
`Content-Type` header, and the fully read body). -/
structure HttpResponse where
  status : Nat
  contentType : String
  body : String
  deriving Repr, DecidableEq

/-- Go `strings.Contains`. -/
def strContains (s sub : String) : Bool := decide (sub.data.IsInfix s.data)

/-- Standard base64 with padding (Go `base64.StdEncoding`). -/
def b64StdAlphabet : List Char :=
  "ABCDEFGHIJKLMNOPQRSTUVWXYZabcdefghijklmnopqrstuvwxyz0123456789+/".data

def b64StdChar (n : Nat) : Char := b64StdAlphabet.getD n '?'

def base64Std : List Nat → List Char
  | [] => []
  | [b0] => [b64StdChar (b0 >>> 2), b64StdChar ((b0 &&& 0x3) <<< 4), '=', '=']
  | [b0, b1] =>
      [b64StdChar (b0 >>> 2), b64StdChar (((b0 &&& 0x3) <<< 4) ||| (b1 >>> 4)),
       b64StdChar ((b1 &&& 0xF) <<< 2), '=']
  | b0 :: b1 :: b2 :: rest =>
      b64StdChar (b0 >>> 2) :: b64StdChar (((b0 &&& 0x3) <<< 4) ||| (b1 >>> 4)) ::
      b64StdChar ((((b1 &&& 0xF) <<< 2) ||| (b2 >>> 6))) :: b64StdChar (b2 &&& 0x3F) ::
      base64Std rest

structure ToolCallResponse where
  content : List Content
  isError : Bool
  deriving Repr, DecidableEq

/-- Response classification (source: the `resp.StatusCode >= 400` guard
precedes content-type dispatch). `indentJson` models stdlib `json.Indent`:
`some pretty` on success, `none` on a JSON error (body kept as-is then). -/
def classifyResponse (indentJson : String → Option String) (resp : HttpResponse) :
    Except RpcError ToolCallResponse :=
  if 400 ≤ resp.status then
    .error (mkError (-32603) (some (.content (textContent
      ("Request failed with status " ++ toString resp.status ++ ": " ++ resp.body)))))
  else
    let content :=
      if resp.contentType.startsWith "image/" then
        imageContent (String.mk (base64Std (utf8Bytes resp.body))) resp.contentType
      else if strContains resp.contentType "application/json" then
        textContent (match indentJson resp.body with
          | some pretty => pretty
          | none => resp.body)
      else textContent resp.body
    .ok ⟨[content], false⟩

structure ServerInfo where
  name : String
  version : String
  deriving Repr, DecidableEq

/-- The MCP server: the in-memory OpenAPI model, the parsed base URL, the
injected HTTP client and the stdlib JSON indenter as collaborators. -/
structure Server where
  model : ApiModel
  baseURL : BaseUrl
  client : OutRequest → HttpResponse
  indentJson : String → Option String
  info : ServerInfo

/-- The decoded `ToolCallRequest` parameters. -/
structure ToolCallArgs where
  name : List Nat
  arguments : List (String × Value)

/-- The outbound request built for a located operation. -/
def outboundRequest (srv : Server) (method p : String) (op : Operation)
    (item : PathItem) (args : List (String × Value)) : OutRequest :=
  let st0 : BindState := ⟨buildPath srv.baseURL p, [], []⟩
  let st1 := item.parameters.foldl (bindPathItemParam args) st0
  let st2 := op.parameters.foldl (bindOpParam args) st1
  let reqBody := match bodyParamsOf op args with
    | some l => if l.isEmpty then none else some l
    | none => none
  { method := method,
    scheme := if srv.baseURL.scheme = "" then "http" else srv.baseURL.scheme,
    host := srv.baseURL.host,
    upath := st2.upath,
    query := st2.query,
    headers := st2.headers,
    body := reqBody,
    contentTypeJson := reqBody.isSome }

/-- `handleToolsCall`: locate the operation, build and dispatch the HTTP
request, classify the response. -/
def handleToolsCall (srv : Server) (req : ToolCallArgs) :
    Except RpcError ToolCallResponse :=
  match findOperationByToolName srv.model req.name with
  | none => .error (mkError (-32601) none)
  | some (method, p, op, item) =>
      classifyResponse srv.indentJson
        (srv.client (outboundRequest srv method p op item req.arguments))

/-! ## JSON-RPC requests, responses and the router (`HandleRequest`) -/

/-- The wire value of a JSON-RPC `id`: string or number. -/
inductive IDVal where
  | str (s : String)
  | num (n : Int)
  deriving Repr, DecidableEq

/-- A decoded JSON-RPC request; `id = none` is a notification (and also the
zero `ID` left by an absent field). -/
structure Request where
  method : String
  params : Option Value
  id : Option IDVal

/-- Empty response structs. -/
structure PingResponse where
  deriving Repr, DecidableEq

/-- `PingResponse` is a struct with no fields: it marshals to `{}`. -/
def marshalPingResponse (_ : PingResponse) : Value := .obj []

structure InitializeResult where
  protocolVersion : String
  toolsListChanged : Bool
  serverInfo : ServerInfo
  deriving Repr, DecidableEq

/-- The dynamic result of a routed method (the `interface{}` result). -/
inductive ResultVal where
  | initResp (r : InitializeResult)
  | toolsList (tools : List Tool)
  | toolCall (r : ToolCallResponse)
  | ping (r : PingResponse)
  deriving Repr, DecidableEq

structure Response where
  version : String
  result : Option ResultVal
  error : Option RpcError
  id : Option IDVal
  deriving Repr, DecidableEq

/-- `jsonrpc.NewResponse`. -/
def mkResponse (id : Option IDVal) (result : Option ResultVal) (err : Option RpcError) :
    Response :=
  ⟨"2.0", result, err, id⟩

/-- `ID.MarshalJSON` from `jsonrpc/id.go`: a nil id marshals as the JSON
number `0`. -/
def marshalID : Option IDVal → Value
  | none => .num 0
  | some (.str s) => .str s
  | some (.num n) => .num n

/-- `json.Unmarshal` of `params` into an empty struct
(`InitializeRequest` / `PingRequest`): absent params are not decoded at
all; a JSON object or null decodes; other values fail. -/
def decodeEmptyStruct : Option Value → Except String Unit
  | none => .ok ()
  | some .null => .ok ()
  | some (.obj _) => .ok ()
  | some _ => .error "json: cannot unmarshal value into struct"

/-- `json.Unmarshal` of `params` into `ToolsListRequest{Cursor string}`. -/
def decodeToolsList : Option Value → Except String Unit
  | none => .ok ()
  | some .null => .ok ()
  | some (.obj fields) =>
      match fields.lookup "cursor" with
      | none => .ok ()
      | some (.str _) => .ok ()
      | some .null => .ok ()
      | some _ => .error "json: cannot unmarshal cursor"
  | some _ => .error "json: cannot unmarshal value into ToolsListRequest"

/-- `json.Unmarshal` of `params` into
`ToolCallRequest{Name string; Arguments map[string]interface{}}`. -/
def decodeToolCall : Option Value → Except String ToolCallArgs
  | none => .ok ⟨[], []⟩
  | some .null => .ok ⟨[], []⟩
  | some (.obj fields) =>
      let nameE : Except String (List Nat) :=
        match fields.lookup "name" with
        | none => .ok []
        | some (.str s) => .ok (utf8Bytes s)
        | some .null => .ok []
        | some _ => .error "json: cannot unmarshal name"
      let argsE : Except String (List (String × Value)) :=
        match fields.lookup "arguments" with
        | none => .ok []
        | some (.obj l) => .ok l
        | some .null => .ok []
        | some _ => .error "json: cannot unmarshal arguments"
      match nameE, argsE with
      | .ok n, .ok a => .ok ⟨n, a⟩
      | .error e, _ => .error e
      | .ok _, .error e => .error e
  | some _ => .error "json: cannot unmarshal value into ToolCallRequest"

/-- The `handleMethod` wrapper: decode failures become InvalidParams; a
handler `*jsonrpc.Error` is passed through; a success becomes the result. -/
def respondWith (id : Option IDVal) (decoded : Except String α)
    (handler : α → Except RpcError ResultVal) : Response :=
  match decoded with
  | .error e => mkResponse id none (some (mkError (-32602) (some (.errMsg e))))
  | .ok a =>
      match handler a with
      | .error rpcErr => mkResponse id none (some rpcErr)
      | .ok result => mkResponse id (some result) none

/-- `Server.HandleRequest` from `mcp/server.go`: the method switch. Note
the switch routes `"ping/ping"` (and no other ping spelling). -/
def handleRequest (srv : Server) (req : Request) : Response :=
  match req.method with
  | "initialize" =>
      respondWith req.id (decodeEmptyStruct req.params)
        (fun _ => .ok (.initResp ⟨"2024-11-05", false, srv.info⟩))
  | "tools/list" =>
      respondWith req.id (decodeToolsList req.params)
        (fun _ => .ok (.toolsList (handleToolsList srv.model)))
  | "tools/call" =>
      respondWith req.id (decodeToolCall req.params)
        (fun tc => (handleToolsCall srv tc).map .toolCall)
  | "ping/ping" =>
      respondWith req.id (decodeEmptyStruct req.params)
        (fun _ => .ok (.ping ⟨⟩))
  | _ => mkResponse req.id none (some (mkError (-32601) none))

/-! ## Stdio transport models -/

/-- The per-line handler step of `Transport.Run` in `mcp/transport.go`
(the revision whose handler returns a `jsonrpc.Response` value): an
unmarshal failure yields a Parse-error response with a nil id; otherwise
the handler's response is emitted. `parsed` is the outcome of
`json.Unmarshal` on the line. -/
def handlerStepSync (handle : Request → Response) (parsed : Except String Request) :
    Response :=
  match parsed with
  | .error e => mkResponse none none (some (mkError (-32700) (some (.errMsg e))))
  | .ok req => handle req

/-- Per-line processing of the value-returning transport: empty lines are
skipped, every other line produces exactly one response. -/
def processLineSync (parse : String → Except String Request)
    (handle : Request → Response) (line : String) : Option Response :=
  if line = "" then none else some (handlerStepSync handle (parse line))

/-- Modelled from the spec: the `mattt/emcee` revision's
`Server.HandleRequest` has type `func(jsonrpc.Request) *jsonrpc.Response`
(its caller `Transport.Run` in `src/unnamed/part_008` and its test are in
the sources, but the function itself is not); per the spec, "Notifications
(no `id`) MUST NOT produce a response", so it returns nil for a request
without an id and otherwise responds through the router. -/
def handleRequestOpt (route : Request → Response) (req : Request) : Option Response :=
  match req.id with
  | none => none
  | some _ => some (route req)

/-- The handler goroutine step of `Transport.Run` in
`src/unnamed/part_008`: empty lines are skipped, unmarshal failures yield
a Parse-error response, and a nil handler response is not emitted. -/
def processLineEmcee (parse : String → Except String Request)
    (route : Request → Response) (line : String) : Option Response :=
  if line = "" then none
  else
    match parse line with
    | .error e => some (mkResponse none none (some (mkError (-32700) (some (.errMsg e)))))
    | .ok req => handleRequestOpt route req

/-- The reader goroutine of `Transport.Run` in `mcp/transport.go`: bytes
are read one at a time; `\n` or `\r` terminates a line (empty lines are
not forwarded); on EOF the remaining buffered bytes are dropped. `acc`
holds the buffered line in reverse. -/
def readLines : List Char → List Char → List String
  | [], _acc => []
  | c :: rest, acc =>
      if c = '\n' ∨ c = '\r' then
        if acc.isEmpty then readLines rest []
        else String.mk acc.reverse :: readLines rest []
      else readLines rest (c :: acc)

/-- End-to-end transport outputs: the responses emitted for an input byte
stream, in order. -/
def transportOutputs (parse : String → Except String Request)
    (handle : Request → Response) (input : List Char) : List Response :=
  (readLines input []).filterMap (processLineSync parse handle)

/-! ## Claim theorems -/

/-- C2: for every operationId, `getToolName` returns the operationId
itself when its byte length is at most 64, and otherwise returns its
first 55 bytes, `_` (byte 95), and the first 8 characters of the URL-safe
base64 encoding of the SHA-256 digest of the full operationId (in which
case the name has length exactly 64); hence every produced tool name has
length at most 64. -/
theorem toolName_spec (opId : List Nat) :
    (opId.length ≤ 64 → getToolName opId = opId) ∧
    (64 < opId.length →
      getToolName opId =
        opId.take 55 ++ [95] ++ ((base64RawURL (sha256 opId)).take 8).map Char.toNat ∧
      (getToolName opId).length = 64) ∧
    (getToolName opId).length ≤ 64 := by
  by_cases h : opId.length ≤ 64
  · refine ⟨fun _ => by simp [getToolName, h], fun hlt => absurd hlt (by omega), ?_⟩
    simp [getToolName, h]
  · have h43 : (base64RawURL (sha256 opId)).length = 43 := by
      simp [sha256, base64RawURL_hashBytes_length]
    have hform : getToolName opId =
        opId.take 55 ++ [95] ++ ((base64RawURL (sha256 opId)).take 8).map Char.toNat := by
      simp [getToolName, h]
    have hlen : (getToolName opId).length = 64 := by
      rw [hform]
      simp [List.length_append, List.length_take, List.length_map, h43]
      omega
    exact ⟨fun hle => absurd hle h, fun _ => ⟨hform, hlen⟩, by omega⟩

/-- Witness for C2 at a concrete 70-byte operationId. -/
theorem toolName_spec_witness :
    64 < (utf8Bytes (String.mk (List.replicate 70 'a'))).length ∧
    getToolName (utf8Bytes (String.mk (List.replicate 70 'a'))) =
      (utf8Bytes (String.mk (List.replicate 70 'a'))).take 55 ++ [95] ++
        ((base64RawURL (sha256 (utf8Bytes (String.mk (List.replicate 70 'a'))))).take 8).map
          Char.toNat ∧
    (getToolName (utf8Bytes (String.mk (List.replicate 70 'a')))).length = 64 :=
  ⟨by decide, (toolName_spec (utf8Bytes (String.mk (List.replicate 70 'a')))).2.1 (by decide)⟩

/-- C3: an operation whose operationId is empty is never included in the
tools/list projection (every listed tool stems from an operation with a
non-empty operationId) and is never returned by tool-name dispatch. -/
theorem emptyOperationId_skipped (m : ApiModel) :
    (∀ t ∈ handleToolsList m,
       ∃ path item method op, (path, item) ∈ m.pathItems ∧
         (method, some op) ∈ operationsOf item ∧ op.operationId ≠ "" ∧ t = mkTool item op) ∧
    (∀ (toolName : List Nat) r, findOperationByToolName m toolName = some r →
       r.2.2.1.operationId ≠ "") := by
  constructor
  · intro t ht
    rw [handleToolsList, List.mem_flatMap] at ht
    obtain ⟨entry, hentry, ht⟩ := ht
    rw [List.mem_filterMap] at ht
    obtain ⟨me, hme, hval⟩ := ht
    cases hop : me.2 with
    | none => rw [hop] at hval; simp at hval
    | some op =>
        rw [hop] at hval
        by_cases hid : op.operationId = ""
        · simp [hid] at hval
        · simp only [if_neg hid, Option.some.injEq] at hval
          exact ⟨entry.1, entry.2, me.1, op, by simpa using hentry,
                 by rw [← hop]; simpa using hme, hid, hval.symm⟩
  · intro toolName r hfind
    rw [findOperationByToolName] at hfind
    obtain ⟨entry, hentry, hinner⟩ := List.exists_of_findSome?_eq_some hfind
    obtain ⟨me, hme, hval⟩ := List.exists_of_findSome?_eq_some hinner
    cases hop : me.2 with
    | none => rw [hop] at hval; simp at hval
    | some op =>
        rw [hop] at hval
        have hval2 : (if op.operationId ≠ "" ∧ getToolName (utf8Bytes op.operationId) = toolName
            then some (me.1, entry.1, op, entry.2) else none) = some r := hval
        by_cases hc : op.operationId ≠ "" ∧ getToolName (utf8Bytes op.operationId) = toolName
        · rw [if_pos hc] at hval2
          cases hval2
          exact hc.1
        · rw [if_neg hc] at hval2
          cases hval2

/-- A small concrete model: one path with a named GET operation and a POST
operation whose operationId is empty. -/
def opListPets : Operation := ⟨"listPets", "", "List pets", [], none⟩

def opAnon : Operation := ⟨"", "", "", [], none⟩

def itemPets : PathItem := ⟨some opListPets, some opAnon, none, none, none, []⟩

def modelPets : ApiModel := ⟨[("/pets", itemPets)]⟩

/-- Witness for C3 on the concrete model. -/
theorem emptyOperationId_skipped_witness :
    (∃ path item method op, (path, item) ∈ modelPets.pathItems ∧
       (method, some op) ∈ operationsOf item ∧ op.operationId ≠ "" ∧
       mkTool itemPets opListPets = mkTool item op) ∧
    ("GET", "/pets", opListPets, itemPets).2.2.1.operationId ≠ "" :=
  ⟨(emptyOperationId_skipped modelPets).1 (mkTool itemPets opListPets) (by decide),
   (emptyOperationId_skipped modelPets).2 (getToolName (utf8Bytes "listPets"))
     ("GET", "/pets", opListPets, itemPets) (by decide)⟩

/-- C4: when the located operation's HTTP response has status at least
400, the call returns the Internal (-32603) JSON-RPC error whose data is
a text Content naming the status code and the response body, not a
successful ToolCallResponse. -/
theorem toolsCall_status400_error (srv : Server) (req : ToolCallArgs)
    (method p : String) (op : Operation) (item : PathItem)
    (hfind : findOperationByToolName srv.model req.name = some (method, p, op, item))
    (resp : HttpResponse)
    (hresp : srv.client (outboundRequest srv method p op item req.arguments) = resp)
    (hstatus : 400 ≤ resp.status) :
    handleToolsCall srv req =
      .error (mkError (-32603) (some (.content (textContent
        ("Request failed with status " ++ toString resp.status ++ ": " ++ resp.body))))) := by
  rw [handleToolsCall, hfind]
  show classifyResponse srv.indentJson
      (srv.client (outboundRequest srv method p op item req.arguments)) = _
  rw [hresp, classifyResponse, if_pos hstatus]

/-- A server over the pets model whose injected client always answers
with a 500 JSON error body. -/
def srv500 : Server :=
  ⟨modelPets, ⟨"http", "h", ""⟩, fun _ => ⟨500, "application/json", "oops"⟩,
   fun _ => none, ⟨"emcee", "dev"⟩⟩

/-- Witness for C4: a concrete call that meets a 500 response. -/
theorem toolsCall_status400_error_witness :
    handleToolsCall srv500 ⟨utf8Bytes "listPets", []⟩ =
      .error (mkError (-32603) (some (.content (textContent
        ("Request failed with status " ++ toString (500 : Nat) ++ ": " ++ "oops"))))) :=
  toolsCall_status400_error srv500 ⟨utf8Bytes "listPets", []⟩ "GET" "/pets" opListPets
    itemPets (by decide) ⟨500, "application/json", "oops"⟩ rfl (by decide)

/-! ### Path invariance of the binding folds (for C9) -/

theorem bindPathItemParam_upath (args : List (String × Value)) (st : BindState) (p : Param)
    (h : p.loc = "path" → args.lookup p.name = none) :
    (bindPathItemParam args st p).upath = st.upath := by
  by_cases hp : p.loc = "path"
  · simp [bindPathItemParam, h hp]
  · cases hl : args.lookup p.name with
    | none => simp [bindPathItemParam, hl]
    | some v =>
        by_cases hq : p.loc = "query" <;> by_cases hh : p.loc = "header" <;>
          simp [bindPathItemParam, hl, hp, hq, hh]

theorem bindOpParam_upath (args : List (String × Value)) (st : BindState) (p : Param)
    (h : p.loc = "path" → args.lookup p.name = none) :
    (bindOpParam args st p).upath = st.upath := by
  by_cases hp : p.loc = "path"
  · simp [bindOpParam, h hp]
  · cases hl : args.lookup p.name with
    | none => simp [bindOpParam, hl]
    | some v =>
        by_cases hq : p.loc = "query" <;> by_cases hh : p.loc = "header" <;>
          simp [bindOpParam, hl, hp, hq, hh]

theorem foldPathItem_upath (args : List (String × Value)) (ps : List Param) (st : BindState)
    (h : ∀ p ∈ ps, p.loc = "path" → args.lookup p.name = none) :
    (ps.foldl (bindPathItemParam args) st).upath = st.upath := by
  induction ps generalizing st with
  | nil => rfl
  | cons p rest ih =>
      rw [List.foldl_cons, ih _ (fun q hq => h q (List.mem_cons_of_mem _ hq))]
      exact bindPathItemParam_upath args st p (h p (List.mem_cons_self _ _))

theorem foldOp_upath (args : List (String × Value)) (ps : List Param) (st : BindState)
    (h : ∀ p ∈ ps, p.loc = "path" → args.lookup p.name = none) :
    (ps.foldl (bindOpParam args) st).upath = st.upath := by
  induction ps generalizing st with
  | nil => rfl
  | cons p rest ih =>
      rw [List.foldl_cons, ih _ (fun q hq => h q (List.mem_cons_of_mem _ hq))]
      exact bindOpParam_upath args st p (h p (List.mem_cons_self _ _))

/-- C9: when no declared path parameter of the located operation is
supplied in the arguments (in particular when the one declared path
parameter is absent), the call still proceeds to HTTP dispatch with no
parameter error, and the outbound path is the assembled base/operation
path unchanged — any `{name}` placeholder it contains is retained
verbatim. -/
theorem missingPathParam_keeps_placeholder (srv : Server) (args : List (String × Value))
    (name : List Nat) (method p : String) (op : Operation) (item : PathItem) (pn : String)
    (hfind : findOperationByToolName srv.model name = some (method, p, op, item))
    (hdecl : ∃ q ∈ item.parameters ++ op.parameters, q.loc = "path" ∧ q.name = pn)
    (hmissing : ∀ q ∈ item.parameters ++ op.parameters,
      q.loc = "path" → args.lookup q.name = none) :
    handleToolsCall srv ⟨name, args⟩ =
      classifyResponse srv.indentJson
        (srv.client (outboundRequest srv method p op item args)) ∧
    (outboundRequest srv method p op item args).upath = buildPath srv.baseURL p ∧
    (("\x7b" ++ pn ++ "\x7d").data.IsInfix (buildPath srv.baseURL p).data →
      ("\x7b" ++ pn ++ "\x7d").data.IsInfix
        (outboundRequest srv method p op item args).upath.data) := by
  have hPI : ∀ q ∈ item.parameters, q.loc = "path" → args.lookup q.name = none :=
    fun q hq => hmissing q (List.mem_append_left _ hq)
  have hOp : ∀ q ∈ op.parameters, q.loc = "path" → args.lookup q.name = none :=
    fun q hq => hmissing q (List.mem_append_right _ hq)
  have hpath : (outboundRequest srv method p op item args).upath = buildPath srv.baseURL p := by
    show ((op.parameters.foldl (bindOpParam args)
      (item.parameters.foldl (bindPathItemParam args)
        ⟨buildPath srv.baseURL p, [], []⟩)).upath) = _
    rw [foldOp_upath args op.parameters _ hOp, foldPathItem_upath args item.parameters _ hPI]
  refine ⟨?_, hpath, fun hin => by rwa [hpath]⟩
  rw [handleToolsCall, hfind]

/-- A pets model with a `{petId}` path parameter, for the C9 witness. -/
def petIdParam : Param := ⟨"petId", "path", true, some ⟨["string"], ""⟩, "pet id"⟩

def opGetPet : Operation := ⟨"getPet", "", "Get a pet", [petIdParam], none⟩

def itemGetPet : PathItem := ⟨some opGetPet, none, none, none, none, []⟩

def modelGetPet : ApiModel := ⟨[("/pets/\x7bpetId\x7d", itemGetPet)]⟩

def srvGetPet : Server :=
  ⟨modelGetPet, ⟨"http", "h", ""⟩, fun _ => ⟨200, "application/json", "\x7b\x7d"⟩,
   fun _ => none, ⟨"emcee", "dev"⟩⟩

/-- Witness for C9: calling `getPet` with no arguments keeps the
`{petId}` placeholder in the outbound path. -/
theorem missingPathParam_keeps_placeholder_witness :
    handleToolsCall srvGetPet ⟨utf8Bytes "getPet", []⟩ =
      classifyResponse srvGetPet.indentJson
        (srvGetPet.client (outboundRequest srvGetPet "GET" "/pets/\x7bpetId\x7d"
          opGetPet itemGetPet [])) ∧
    (outboundRequest srvGetPet "GET" "/pets/\x7bpetId\x7d" opGetPet itemGetPet []).upath =
      buildPath srvGetPet.baseURL "/pets/\x7bpetId\x7d" ∧
    (("\x7b" ++ "petId" ++ "\x7d").data.IsInfix
        (buildPath srvGetPet.baseURL "/pets/\x7bpetId\x7d").data →
      ("\x7b" ++ "petId" ++ "\x7d").data.IsInfix
        (outboundRequest srvGetPet "GET" "/pets/\x7bpetId\x7d" opGetPet itemGetPet []).upath.data) :=
  missingPathParam_keeps_placeholder srvGetPet [] (utf8Bytes "getPet") "GET"
    "/pets/\x7bpetId\x7d" opGetPet itemGetPet "petId" (by decide)
    ⟨petIdParam, by decide, rfl, rfl⟩
    (by
      intro q hq hloc
      have hq2 : q = petIdParam := by
        simpa [itemGetPet, opGetPet, opListPets] using hq
      subst hq2
      rfl)

/-! ### Query binding lemmas (for C5) -/

/-- Whether a parameter binding step stores a value under query key `n`. -/
def setsQuery (args : List (String × Value)) (n : String) (p : Param) : Bool :=
  p.loc == "query" && p.name == n && (args.lookup n).isSome

/-- The value stored for query key `n` by a path-item-level parameter:
always the plain `fmt.Sprint` rendering. -/
def piQueryVal (args : List (String × Value)) (n : String) : String :=
  fmtSprint ((args.lookup n).getD .null)

/-- The value stored for query key `n` by an operation-level parameter:
comma-joined for arrays, `fmt.Sprint` otherwise. -/
def opQueryVal (args : List (String × Value)) (n : String) : String :=
  match args.lookup n with
  | some (.arr elems) => commaJoined elems
  | some v => fmtSprint v
  | none => ""

theorem bindPathItemParam_query_sets (args : List (String × Value)) (st : BindState)
    (p : Param) (n : String) (h : setsQuery args n p = true) :
    (bindPathItemParam args st p).query.lookup n = some (piQueryVal args n) := by
  rw [setsQuery, Bool.and_eq_true, Bool.and_eq_true] at h
  obtain ⟨⟨hloc, hname⟩, hsome⟩ := h
  rw [beq_iff_eq] at hloc hname
  obtain ⟨v, hv⟩ := Option.isSome_iff_exists.mp hsome
  have hlp : args.lookup p.name = some v := by rw [hname]; exact hv
  simp [bindPathItemParam, hlp, hloc, hname, piQueryVal, hv]

theorem bindPathItemParam_query_other (args : List (String × Value)) (st : BindState)
    (p : Param) (n : String) (h : setsQuery args n p = false) :
    (bindPathItemParam args st p).query.lookup n = st.query.lookup n := by
  cases hl : args.lookup p.name with
  | none => simp [bindPathItemParam, hl]
  | some v =>
      by_cases hp : p.loc = "path"
      · simp [bindPathItemParam, hl, hp]
      · by_cases hq : p.loc = "query"
        · by_cases hn : p.name = n
          · exfalso
            rw [setsQuery, hq, hn] at h
            rw [hn] at hl
            simp [hl] at h
          · simp [bindPathItemParam, hl, hp, hq,
              lookup_mapSet_other _ _ _ _ (fun e => hn e.symm)]
        · by_cases hh : p.loc = "header" <;> simp [bindPathItemParam, hl, hp, hq, hh]

theorem bindOpParam_query_sets (args : List (String × Value)) (st : BindState)
    (p : Param) (n : String) (h : setsQuery args n p = true) :
    (bindOpParam args st p).query.lookup n = some (opQueryVal args n) := by
  rw [setsQuery, Bool.and_eq_true, Bool.and_eq_true] at h
  obtain ⟨⟨hloc, hname⟩, hsome⟩ := h
  rw [beq_iff_eq] at hloc hname
  obtain ⟨v, hv⟩ := Option.isSome_iff_exists.mp hsome
  have hlp : args.lookup p.name = some v := by rw [hname]; exact hv
  cases v <;> simp [bindOpParam, hlp, hloc, hname, opQueryVal, hv]

theorem bindOpParam_query_other (args : List (String × Value)) (st : BindState)
    (p : Param) (n : String) (h : setsQuery args n p = false) :
    (bindOpParam args st p).query.lookup n = st.query.lookup n := by
  cases hl : args.lookup p.name with
  | none => simp [bindOpParam, hl]
  | some v =>
      by_cases hp : p.loc = "path"
      · simp [bindOpParam, hl, hp]
      · by_cases hq : p.loc = "query"
        · by_cases hn : p.name = n
          · exfalso
            rw [setsQuery, hq, hn] at h
            rw [hn] at hl
            simp [hl] at h
          · cases v <;>
              simp [bindOpParam, hl, hp, hq,
                lookup_mapSet_other _ _ _ _ (fun e => hn e.symm)]
        · by_cases hh : p.loc = "header" <;> simp [bindOpParam, hl, hp, hq, hh]

theorem foldPathItem_query (args : List (String × Value)) (ps : List Param)
    (st : BindState) (n : String) :
    (ps.foldl (bindPathItemParam args) st).query.lookup n =
      if ps.any (setsQuery args n) then some (piQueryVal args n)
      else st.query.lookup n := by
  induction ps generalizing st with
  | nil => simp
  | cons p rest ih =>
      rw [List.foldl_cons, ih]
      cases hb : setsQuery args n p with
      | true =>
          by_cases hr : rest.any (setsQuery args n) = true
          · simp [List.any_cons, hb, hr]
          · simp [List.any_cons, hb, hr,
              bindPathItemParam_query_sets args st p n hb]
      | false =>
          simp [List.any_cons, hb, bindPathItemParam_query_other args st p n hb]

theorem foldOp_query (args : List (String × Value)) (ps : List Param)
    (st : BindState) (n : String) :
    (ps.foldl (bindOpParam args) st).query.lookup n =
      if ps.any (setsQuery args n) then some (opQueryVal args n)
      else st.query.lookup n := by
  induction ps generalizing st with
  | nil => simp
  | cons p rest ih =>
      rw [List.foldl_cons, ih]
      cases hb : setsQuery args n p with
      | true =>
          by_cases hr : rest.any (setsQuery args n) = true
          · simp [List.any_cons, hb, hr]
          · simp [List.any_cons, hb, hr, bindOpParam_query_sets args st p n hb]
      | false =>
          simp [List.any_cons, hb, bindOpParam_query_other args st p n hb]

/-- The pets model used for C5: a path-item-level `fields` query parameter
and an operation-level `type` query parameter. -/
def typeParam : Param := ⟨"type", "query", false, some ⟨["string"], ""⟩, "pet type"⟩

def fieldsParam : Param := ⟨"fields", "query", false, some ⟨["array"], ""⟩, "fields"⟩

def opListPetsQ : Operation := ⟨"listPets", "", "List pets", [typeParam], none⟩

def itemListPetsQ : PathItem := ⟨some opListPetsQ, none, none, none, none, [fieldsParam]⟩

def modelListPetsQ : ApiModel := ⟨[("/pets", itemListPetsQ)]⟩

def srvListPetsQ : Server :=
  ⟨modelListPetsQ, ⟨"http", "h", ""⟩, fun _ => ⟨200, "application/json", "[]"⟩,
   fun _ => none, ⟨"emcee", "dev"⟩⟩

def argsFields : List (String × Value) :=
  [("fields", .arr [.str "name", .str "age"]), ("type", .str "dog")]

/-- Counterexample to C5 as stated: the declared path-item-level query
parameter `fields` receives the array `["name","age"]`, yet the query
value bound for it is the Go `fmt.Sprint` rendering `[name age]`, not the
comma-joined `name,age`. -/
theorem pathItemArrayQuery_not_comma_joined :
    findOperationByToolName modelListPetsQ (utf8Bytes "listPets") =
      some ("GET", "/pets", opListPetsQ, itemListPetsQ) ∧
    argsFields.lookup "fields" = some (.arr [.str "name", .str "age"]) ∧
    (outboundRequest srvListPetsQ "GET" "/pets" opListPetsQ itemListPetsQ
        argsFields).query.lookup "fields" = some "[name age]" ∧
    (outboundRequest srvListPetsQ "GET" "/pets" opListPetsQ itemListPetsQ
        argsFields).query.lookup "fields" ≠ some "name,age" :=
  ⟨by decide, rfl, by rfl, by decide⟩

/-- C5 amended: for a supplied query parameter, an operation-level
declaration stores the comma-joined rendering for arrays and the
`fmt.Sprint` rendering for scalars, while a path-item-level declaration
(not overridden at operation level) always stores the plain `fmt.Sprint`
rendering, under which arrays appear bracketed and space-separated. -/
theorem queryParam_binding (srv : Server) (args : List (String × Value)) (name : List Nat)
    (method p : String) (op : Operation) (item : PathItem) (n : String)
    (hfind : findOperationByToolName srv.model name = some (method, p, op, item)) :
    (op.parameters.any (setsQuery args n) = true →
      (outboundRequest srv method p op item args).query.lookup n =
        some (opQueryVal args n)) ∧
    (∀ elems, args.lookup n = some (.arr elems) →
      opQueryVal args n = commaJoined elems) ∧
    (∀ v, args.lookup n = some v → (∀ elems, v ≠ .arr elems) →
      opQueryVal args n = fmtSprint v) ∧
    (item.parameters.any (setsQuery args n) = true →
      op.parameters.any (setsQuery args n) = false →
      (outboundRequest srv method p op item args).query.lookup n =
        some (piQueryVal args n)) := by
  have hq : (outboundRequest srv method p op item args).query =
      (op.parameters.foldl (bindOpParam args)
        (item.parameters.foldl (bindPathItemParam args)
          ⟨buildPath srv.baseURL p, [], []⟩)).query := rfl
  refine ⟨?_, ?_, ?_, ?_⟩
  · intro hany
    rw [hq, foldOp_query, if_pos hany]
  · intro elems he
    simp [opQueryVal, he]
  · intro v hv hne
    cases v with
    | arr elems => exact absurd rfl (hne elems)
    | null => simp [opQueryVal, hv]
    | bool b => simp [opQueryVal, hv]
    | num m => simp [opQueryVal, hv]
    | str s => simp [opQueryVal, hv]
    | obj fs => simp [opQueryVal, hv]
  · intro hpi hop
    rw [hq, foldOp_query, if_neg (by simp [hop]), foldPathItem_query, if_pos hpi]

/-- Witness for C5 amended: the operation-level `type` and the
path-item-level `fields` parameters of the concrete call. -/
theorem queryParam_binding_witness :
    (outboundRequest srvListPetsQ "GET" "/pets" opListPetsQ itemListPetsQ
        argsFields).query.lookup "type" = some (opQueryVal argsFields "type") ∧
    (outboundRequest srvListPetsQ "GET" "/pets" opListPetsQ itemListPetsQ
        argsFields).query.lookup "fields" = some (piQueryVal argsFields "fields") :=
  ⟨(queryParam_binding srvListPetsQ argsFields (utf8Bytes "listPets") "GET" "/pets"
      opListPetsQ itemListPetsQ "type" (by decide)).1 (by decide),
   (queryParam_binding srvListPetsQ argsFields (utf8Bytes "listPets") "GET" "/pets"
      opListPetsQ itemListPetsQ "fields" (by decide)).2.2.2 (by decide) (by decide)⟩

/-! ### Request-body lemmas (for C6) -/

theorem mapSet_ne_nil (m : List (String × α)) (k : String) (v : α) :
    mapSet m k v ≠ [] := by
  cases m with
  | nil => simp [mapSet]
  | cons p rest =>
      obtain ⟨a, b⟩ := p
      by_cases h : a = k <;> simp [mapSet, h]

theorem bodyFold_lookup (args : List (String × Value)) (props : List BodyProp)
    (acc : List (String × Value)) (k : String) :
    (bodyFold args props acc).lookup k =
      if props.any (fun pr => pr.name == k) && (args.lookup k).isSome
      then args.lookup k else acc.lookup k := by
  induction props generalizing acc with
  | nil => simp [bodyFold]
  | cons pr rest ih =>
      cases hl : args.lookup pr.name with
      | some v =>
          rw [bodyFold, hl]
          rw [ih]
          by_cases hk : pr.name = k
          · have hlk : args.lookup k = some v := by rw [← hk]; exact hl
            by_cases hr : (rest.any (fun pr => pr.name == k) && (args.lookup k).isSome) = true
            · simp [List.any_cons, hk, hlk, hr]
            · simp only [hr]
              rw [if_neg (by simp [hr])]
              simp [List.any_cons, hk, hlk, hk ▸ lookup_mapSet_self acc pr.name v]
          · have hbe : (pr.name == k) = false := beq_eq_false_iff_ne.mpr hk
            rw [lookup_mapSet_other _ _ _ _ (fun e => hk e.symm)]
            rw [List.any_cons, hbe, Bool.false_or]
      | none =>
          rw [bodyFold, hl]
          rw [ih]
          by_cases hk : pr.name = k
          · have hlk : args.lookup k = none := by rw [← hk]; exact hl
            simp [List.any_cons, hlk]
          · have hbe : (pr.name == k) = false := beq_eq_false_iff_ne.mpr hk
            rw [List.any_cons, hbe, Bool.false_or]

theorem bodyFold_ne_nil (args : List (String × Value)) (props : List BodyProp)
    (acc : List (String × Value)) (h : acc ≠ []) : bodyFold args props acc ≠ [] := by
  induction props generalizing acc with
  | nil => simpa [bodyFold] using h
  | cons pr rest ih =>
      cases hl : args.lookup pr.name with
      | some v =>
          rw [bodyFold, hl]
          exact ih _ (mapSet_ne_nil acc pr.name v)
      | none =>
          rw [bodyFold, hl]
          exact ih _ h

theorem bodyFold_nil_iff (args : List (String × Value)) (props : List BodyProp) :
    bodyFold args props [] = [] ↔ ∀ pr ∈ props, args.lookup pr.name = none := by
  induction props with
  | nil => simp [bodyFold]
  | cons pr rest ih =>
      cases hl : args.lookup pr.name with
      | some v =>
          rw [bodyFold, hl]
          constructor
          · intro h
            exact absurd h (bodyFold_ne_nil args rest _ (mapSet_ne_nil [] pr.name v))
          · intro h
            exact absurd (h pr (List.mem_cons_self _ _)) (by simp [hl])
      | none =>
          rw [bodyFold, hl, ih]
          constructor
          · intro h q hq
            rcases List.mem_cons.mp hq with rfl | hq2
            · exact hl
            · exact h q hq2
          · intro h q hq
            exact h q (List.mem_cons_of_mem _ hq)

/-- C6: for an operation declaring a JSON request body, the outbound body
map holds exactly the declared-and-supplied schema properties (argument
keys not declared by the schema are not forwarded), no body is sent when
no declared property is supplied, and `Content-Type: application/json` is
set exactly when a body is present. -/
theorem requestBody_binding (srv : Server) (args : List (String × Value)) (name : List Nat)
    (method p : String) (op : Operation) (item : PathItem) (sch : BodySchema)
    (hfind : findOperationByToolName srv.model name = some (method, p, op, item))
    (hbody : op.requestBody = some sch) :
    (∀ k, (bodyFold args sch.props []).lookup k =
        if sch.props.any (fun pr => pr.name == k) then args.lookup k else none) ∧
    ((outboundRequest srv method p op item args).body = none ↔
        ∀ pr ∈ sch.props, args.lookup pr.name = none) ∧
    (∀ l, (outboundRequest srv method p op item args).body = some l →
        l = bodyFold args sch.props []) ∧
    (outboundRequest srv method p op item args).contentTypeJson =
      ((outboundRequest srv method p op item args).body).isSome := by
  have hb : (outboundRequest srv method p op item args).body =
      (if (bodyFold args sch.props []).isEmpty then none
       else some (bodyFold args sch.props [])) := by
    simp [outboundRequest, bodyParamsOf, hbody]
  refine ⟨?_, ?_, ?_, rfl⟩
  · intro k
    rw [bodyFold_lookup]
    cases hlk : args.lookup k with
    | none => by_cases hany : sch.props.any (fun pr => pr.name == k) <;>
        simp [hlk, hany, List.lookup]
    | some v => by_cases hany : sch.props.any (fun pr => pr.name == k) <;>
        simp [hlk, hany, List.lookup]
  · rw [hb]
    by_cases he : (bodyFold args sch.props []).isEmpty
    · rw [if_pos he]
      constructor
      · intro _
        exact (bodyFold_nil_iff args sch.props).mp (List.isEmpty_iff.mp he)
      · intro _
        rfl
    · rw [if_neg he]
      constructor
      · intro hcontra
        exact Option.noConfusion hcontra
      · intro hall
        exact absurd (List.isEmpty_iff.mpr ((bodyFold_nil_iff args sch.props).mpr hall)) he
  · intro l hl
    rw [hb] at hl
    by_cases he : (bodyFold args sch.props []).isEmpty
    · rw [if_pos he] at hl
      cases hl
    · rw [if_neg he] at hl
      exact (Option.some.injEq _ _ ▸ hl).symm

/-- The pets model used for C6: a POST operation with a JSON request body
declaring `name` and `age`. -/
def schCreatePet : BodySchema :=
  ⟨[⟨"name", ["string"], "pet name"⟩, ⟨"age", ["integer"], "pet age"⟩], ["name"]⟩

def opCreatePet : Operation := ⟨"createPet", "", "Create a pet", [], some schCreatePet⟩

def itemCreatePet : PathItem := ⟨none, some opCreatePet, none, none, none, []⟩

def modelCreatePet : ApiModel := ⟨[("/pets", itemCreatePet)]⟩

def srvCreatePet : Server :=
  ⟨modelCreatePet, ⟨"http", "h", ""⟩, fun _ => ⟨200, "application/json", "\x7b\x7d"⟩,
   fun _ => none, ⟨"emcee", "dev"⟩⟩

def argsCreatePet : List (String × Value) :=
  [("name", .str "Whiskers"), ("hacker", .str "x")]

/-- Witness for C6: the declared-and-supplied `name` survives, the
undeclared `hacker` key is not forwarded, Content-Type mirrors body
presence. -/
theorem requestBody_binding_witness :
    ((bodyFold argsCreatePet schCreatePet.props []).lookup "name" =
      if schCreatePet.props.any (fun pr => pr.name == "name")
      then argsCreatePet.lookup "name" else none) ∧
    ((bodyFold argsCreatePet schCreatePet.props []).lookup "hacker" =
      if schCreatePet.props.any (fun pr => pr.name == "hacker")
      then argsCreatePet.lookup "hacker" else none) ∧
    (outboundRequest srvCreatePet "POST" "/pets" opCreatePet itemCreatePet
        argsCreatePet).contentTypeJson =
      ((outboundRequest srvCreatePet "POST" "/pets" opCreatePet itemCreatePet
        argsCreatePet).body).isSome :=
  ⟨(requestBody_binding srvCreatePet argsCreatePet (utf8Bytes "createPet") "POST" "/pets"
      opCreatePet itemCreatePet schCreatePet (by decide) rfl).1 "name",
   (requestBody_binding srvCreatePet argsCreatePet (utf8Bytes "createPet") "POST" "/pets"
      opCreatePet itemCreatePet schCreatePet (by decide) rfl).1 "hacker",
   (requestBody_binding srvCreatePet argsCreatePet (utf8Bytes "createPet") "POST" "/pets"
      opCreatePet itemCreatePet schCreatePet (by decide) rfl).2.2.2⟩

/-! ### Ping routing (C8) -/

/-- C8 amended: only the method spelling `"ping/ping"` is routed to the
ping handler and answered with the empty `PingResponse` object; the
spelling `"ping"` falls to the default branch and yields MethodNotFound. -/
theorem ping_routing (srv : Server) (id : Option IDVal) (params : Option Value)
    (hparams : decodeEmptyStruct params = .ok ()) :
    handleRequest srv ⟨"ping/ping", params, id⟩ =
      mkResponse id (some (.ping ⟨⟩)) none ∧
    marshalPingResponse ⟨⟩ = .obj [] ∧
    handleRequest srv ⟨"ping", params, id⟩ =
      mkResponse id none (some (mkError (-32601) none)) := by
  have h1 : handleRequest srv ⟨"ping/ping", params, id⟩ =
      respondWith id (decodeEmptyStruct params) (fun _ => .ok (.ping ⟨⟩)) := rfl
  refine ⟨?_, rfl, rfl⟩
  rw [h1, hparams]
  rfl

/-- Witness for C8 amended at concrete inputs. -/
theorem ping_routing_witness :
    handleRequest srv500 ⟨"ping/ping", none, some (.num 7)⟩ =
      mkResponse (some (.num 7)) (some (.ping ⟨⟩)) none ∧
    marshalPingResponse ⟨⟩ = .obj [] ∧
    handleRequest srv500 ⟨"ping", none, some (.num 7)⟩ =
      mkResponse (some (.num 7)) none (some (mkError (-32601) none)) :=
  ping_routing srv500 (some (.num 7)) none rfl

/-- Counterexample to C8 as stated: a request whose method is `"ping"`
receives a MethodNotFound error response, not the empty object result. -/
theorem ping_not_routed :
    handleRequest srv500 ⟨"ping", none, some (.num 1)⟩ =
      mkResponse (some (.num 1)) none (some (mkError (-32601) none)) ∧
    (handleRequest srv500 ⟨"ping", none, some (.num 1)⟩).result = none ∧
    (handleRequest srv500 ⟨"ping", none, some (.num 1)⟩).error ≠ none :=
  ⟨rfl, rfl, fun h => Option.noConfusion h⟩

/-! ### Parse-error responses (C7) -/

/-- C7 amended: a line whose JSON unmarshalling fails produces exactly one
Response whose error code is -32700 and whose id field serializes as the
JSON number 0 (`ID.MarshalJSON` maps the nil id to `0`, not to null). -/
theorem parseError_response (parse : String → Except String Request)
    (handle : Request → Response) (line e : String)
    (hline : line ≠ "") (hparse : parse line = .error e) :
    processLineSync parse handle line =
      some (mkResponse none none (some (mkError (-32700) (some (.errMsg e))))) ∧
    (mkError (-32700) (some (.errMsg e))).code = -32700 ∧
    marshalID (mkResponse none none (some (mkError (-32700) (some (.errMsg e))))).id =
      .num 0 := by
  refine ⟨?_, rfl, rfl⟩
  simp only [processLineSync, handlerStepSync]
  rw [if_neg hline, hparse]

/-- A parse function that models `json.Unmarshal` failing on a malformed
line, and the malformed line of the spec's concrete scenario. -/
def parseFail : String → Except String Request :=
  fun _ => .error "invalid character m after object key"

def badLine : String := "\x7b\"jsonrpc\": \"2.0\" method: invalid\x7d"

/-- Witness for C7 amended at the concrete malformed line. -/
theorem parseError_response_witness :
    processLineSync parseFail (handleRequest srv500) badLine =
      some (mkResponse none none (some (mkError (-32700)
        (some (.errMsg "invalid character m after object key"))))) ∧
    (mkError (-32700) (some (.errMsg "invalid character m after object key"))).code =
      -32700 ∧
    marshalID (mkResponse none none (some (mkError (-32700)
      (some (.errMsg "invalid character m after object key"))))).id = .num 0 :=
  parseError_response parseFail (handleRequest srv500) badLine
    "invalid character m after object key" (by decide) rfl

/-- Counterexample to C7 as stated: for the malformed line, the emitted
Response's serialized id field is the number 0 — not null. -/
theorem parseError_id_not_null :
    processLineSync parseFail (handleRequest srv500) badLine =
      some (mkResponse none none (some (mkError (-32700)
        (some (.errMsg "invalid character m after object key"))))) ∧
    marshalID (mkResponse none none (some (mkError (-32700)
      (some (.errMsg "invalid character m after object key"))))).id = .num 0 ∧
    marshalID (mkResponse none none (some (mkError (-32700)
      (some (.errMsg "invalid character m after object key"))))).id ≠ .null :=
  ⟨rfl, rfl, fun h => Value.noConfusion h⟩

/-! ### Notifications produce no output (C1) -/

/-- C1: a line parsed as a request without an id (a notification) makes
the emcee transport handler step emit nothing: the handler returns no
response and no bytes are produced for it. -/
theorem notification_no_response (parse : String → Except String Request)
    (route : Request → Response) (line : String) (req : Request)
    (hparse : parse line = .ok req) (hid : req.id = none) :
    processLineEmcee parse route line = none := by
  by_cases hline : line = ""
  · simp [processLineEmcee, hline]
  · simp [processLineEmcee, hline, hparse, handleRequestOpt, hid]

def initializedNotification : Request := ⟨"notifications/initialized", none, none⟩

def parseNotification : String → Except String Request :=
  fun _ => .ok initializedNotification

/-- Witness for C1 at the concrete `notifications/initialized` line. -/
theorem notification_no_response_witness :
    processLineEmcee parseNotification (handleRequest srv500)
      "\x7b\"jsonrpc\":\"2.0\",\"method\":\"notifications/initialized\"\x7d" = none :=
  notification_no_response parseNotification (handleRequest srv500)
    "\x7b\"jsonrpc\":\"2.0\",\"method\":\"notifications/initialized\"\x7d"
    initializedNotification rfl rfl

/-! ### Unterminated trailing bytes are dropped (C10) -/

theorem readLines_noTerminator (t : List Char) (acc : List Char)
    (h : ∀ c ∈ t, c ≠ '\n' ∧ c ≠ '\r') : readLines t acc = [] := by
  induction t generalizing acc with
  | nil => rfl
  | cons c rest ih =>
      have hc := h c (List.mem_cons_self _ _)
      simp [readLines, hc.1, hc.2, ih _ (fun x hx => (h x (List.mem_cons_of_mem _ hx)))]

theorem readLines_append_noTerminator (input t : List Char) (acc : List Char)
    (h : ∀ c ∈ t, c ≠ '\n' ∧ c ≠ '\r') :
    readLines (input ++ t) acc = readLines input acc := by
  induction input generalizing acc with
  | nil =>
      rw [List.nil_append, readLines_noTerminator t acc h]
      rfl
  | cons c rest ih =>
      by_cases hc : c = '\n' ∨ c = '\r'
      · simp [readLines, hc, ih]
      · push_neg at hc
        simp [readLines, hc.1, hc.2, ih]

/-- C10: bytes buffered after the last `\n`/`\r` when the input ends are
discarded by the reader: they contribute no line and the transport emits
no response for them. -/
theorem unterminated_tail_dropped (parse : String → Except String Request)
    (handle : Request → Response) (input t : List Char)
    (h : ∀ c ∈ t, c ≠ '\n' ∧ c ≠ '\r') :
    readLines (input ++ t) [] = readLines input [] ∧
    transportOutputs parse handle (input ++ t) = transportOutputs parse handle input := by
  have h1 := readLines_append_noTerminator input t [] h
  exact ⟨h1, by simp only [transportOutputs]; rw [h1]⟩

/-- Witness for C10: a complete line followed by an unterminated one. -/
theorem unterminated_tail_dropped_witness :
    readLines (("\x7b\"id\":1\x7d\n").data ++ ("\x7b\"id\":2").data) [] =
      readLines ("\x7b\"id\":1\x7d\n").data [] ∧
    transportOutputs parseFail (handleRequest srv500)
        (("\x7b\"id\":1\x7d\n").data ++ ("\x7b\"id\":2").data) =
      transportOutputs parseFail (handleRequest srv500) ("\x7b\"id\":1\x7d\n").data :=
  unterminated_tail_dropped parseFail (handleRequest srv500)
    ("\x7b\"id\":1\x7d\n").data ("\x7b\"id\":2").data (by decide)

end Emcee
